import Mathlib

/-!
Verification of the roast session state machine and derived-metrics engine of
the coffee-roasting assistant (src/src/App.tsx).

Modelling conventions:
* JavaScript numbers are modelled by `JSNum` (NaN, the two infinities, or an
  exact rational); integer-valued state such as the timer is a `Nat`.
* A text field that feeds `parseFloat` is modelled by `NumInput`: the empty
  string, a non-empty string that does not parse (`parseFloat` gives NaN), or
  a non-empty numeral carrying its parsed value.  The number-typed inputs of
  the page (green weight, ambient temperature, charge temperature, current
  temperature, roasted weight) can only ever hold the empty string or a valid
  numeral, which is reflected in the operations that write them.
* An operation of the session state machine is a click of the corresponding
  control, so its guard is the conjunction of the panel's visibility
  condition (the stage) and the button's disabled attribute.  The
  navigation header's buttons write the stage directly and are part of the
  event alphabet: Setup and History are always enabled, Roast only while
  both the green-weight and charge-temperature fields are non-empty.
-/

namespace Zena

/-- Roast phases, from getCurrentPhase's codomain. -/
inductive RoastPhase where
  | drying
  | maillard
  | development
deriving DecidableEq

/-- Roast profile, from the setup select (Light / Medium / Dark). -/
inductive RoastType where
  | light
  | medium
  | dark
deriving DecidableEq

/-- Application stages, from the AppState union type in the source. -/
inductive Stage where
  | setup
  | roasting
  | completion
  | summary
  | history
deriving DecidableEq

/-- Value of a text field that is read through parseFloat: the empty string,
a non-empty non-numeric string, or a non-empty numeral with its value. -/
inductive NumInput where
  | empty
  | nonNumeric
  | num (q : ℚ)
deriving DecidableEq

/-- JavaScript string truthiness: only the empty string is falsy here. -/
def NumInput.truthy : NumInput → Bool
  | .empty => false
  | _ => true

/-- A JavaScript number: NaN, an infinity, or a finite (exact) value. -/
inductive JSNum where
  | nan
  | posInf
  | negInf
  | fin (q : ℚ)
deriving DecidableEq

/-- parseFloat on a field value: NaN unless the field holds a numeral. -/
def jsParse : NumInput → JSNum
  | .num q => .fin q
  | _ => .nan

/-- parseFloat(x) || 0, as used by getPredictions: NaN (and 0) become 0. -/
def parseOrZero : NumInput → ℚ
  | .num q => q
  | _ => 0

/-- JavaScript subtraction on numbers. -/
def JSNum.sub : JSNum → JSNum → JSNum
  | .nan, _ => .nan
  | _, .nan => .nan
  | .posInf, .posInf => .nan
  | .posInf, _ => .posInf
  | .negInf, .negInf => .nan
  | .negInf, _ => .negInf
  | .fin _, .posInf => .negInf
  | .fin _, .negInf => .posInf
  | .fin a, .fin b => .fin (a - b)

/-- JavaScript division on numbers (the divisor zero is treated as +0,
the only zero the integer-valued time differences can produce). -/
def JSNum.div : JSNum → JSNum → JSNum
  | .nan, _ => .nan
  | _, .nan => .nan
  | .posInf, .posInf => .nan
  | .posInf, .negInf => .nan
  | .negInf, .posInf => .nan
  | .negInf, .negInf => .nan
  | .posInf, .fin b => if b < 0 then .negInf else .posInf
  | .negInf, .fin b => if b < 0 then .posInf else .negInf
  | .fin _, .posInf => .fin 0
  | .fin _, .negInf => .fin 0
  | .fin a, .fin b =>
      if b = 0 then (if a = 0 then .nan else if 0 < a then .posInf else .negInf)
      else .fin (a / b)

/-- Multiplication by a positive constant (the source multiplies by the
literals 60 and 100 only), which fixes sign on the infinities. -/
def JSNum.scale (c : ℚ) : JSNum → JSNum
  | .nan => .nan
  | .posInf => .posInf
  | .negInf => .negInf
  | .fin q => .fin (c * q)

/-- Math.round: nearest integer, halves towards positive infinity; the
non-finite values are returned unchanged, as in JavaScript. -/
def JSNum.jround : JSNum → JSNum
  | .fin q => .fin ((round q : ℤ) : ℚ)
  | x => x

/-- One entry of the temperature log (TemperatureReading in the source). -/
structure TemperatureReading where
  time : ℕ
  temperature : JSNum
deriving DecidableEq

/-- The state of the App component: every useState hook that the session
state machine reads or writes (the archived history is out of scope). -/
structure RoastApp where
  appState : Stage
  roastTimer : ℕ
  isTimerRunning : Bool
  firstCrackTime : Option ℕ
  temperatureReadings : List TemperatureReading
  currentTemp : NumInput
  greenWeight : NumInput
  ambientTemp : NumInput
  chargeTemp : NumInput
  roastType : RoastType
  beanOrigin : String
  roastedWeight : NumInput
  roastNotes : String
deriving DecidableEq

/-- The initial values of the useState hooks. -/
def initApp : RoastApp where
  appState := .setup
  roastTimer := 0
  isTimerRunning := false
  firstCrackTime := none
  temperatureReadings := []
  currentTemp := .empty
  greenWeight := .empty
  ambientTemp := .empty
  chargeTemp := .empty
  roastType := .medium
  beanOrigin := ""
  roastedWeight := .empty
  roastNotes := ""

/-- Result of getPredictions. -/
structure Predictions where
  firstCrack : ℚ
  totalTime : ℚ
  development : ℕ
deriving DecidableEq

/-- getPredictions: a fixed heuristic from green weight, charge temperature
and roast profile.  parseFloat(x) || 0 is parseOrZero. -/
def getPredictions (greenWeight chargeTemp : NumInput) (roastType : RoastType) :
    Predictions :=
  let weight := parseOrZero greenWeight
  let charge := parseOrZero chargeTemp
  let baseTime : ℚ := if weight > 500 then 720 else 660
  let tempAdjustment : ℚ := (charge - 200) * 0.5
  let estimatedFirstCrack := baseTime * 0.8 + tempAdjustment
  let estimatedTotal := baseTime + tempAdjustment
  let suggestedDevelopment : ℕ :=
    match roastType with
    | .light => 15
    | .medium => 18
    | .dark => 22
  { firstCrack := max estimatedFirstCrack 480
    totalTime := max estimatedTotal 600
    development := suggestedDevelopment }

/-- getCurrentPhase.  The source tests !firstCrackTime, which is JavaScript
falsy for both null and 0, so a first crack recorded at second 0 takes the
drying branch exactly like an unset marker. -/
def getCurrentPhase (s : RoastApp) : RoastPhase :=
  match s.firstCrackTime with
  | none => .drying
  | some t =>
      if t = 0 then .drying
      else if s.roastTimer < t then .maillard
      else .development

/-- getDevelopmentPercent: Math.round((developmentTime / roastTimer) * 100),
behind the same !firstCrackTime falsy test as getCurrentPhase. -/
def getDevelopmentPercent (s : RoastApp) : JSNum :=
  match s.firstCrackTime with
  | none => .fin 0
  | some t =>
      if t = 0 then .fin 0
      else
        JSNum.jround (JSNum.scale 100
          (JSNum.div (.fin ((s.roastTimer : ℚ) - (t : ℚ))) (.fin (s.roastTimer : ℚ))))

/-- getRateOfRise: 0 with fewer than two samples, otherwise
Math.round((tempDiff / timeDiff) * 60) over the last two samples.  There is
no guard on timeDiff = 0. -/
def getRateOfRise (log : List TemperatureReading) : JSNum :=
  if log.length < 2 then .fin 0
  else
    match log.drop (log.length - 2) with
    | [a, b] =>
        JSNum.jround (JSNum.scale 60
          ((b.temperature.sub a.temperature).div
            (.fin ((b.time : ℚ) - (a.time : ℚ)))))
    | _ => .fin 0

/-- startRoast, clicked through the Begin Roasting Session button: the button
lives on the setup panel and is disabled while either field is empty
(disabled = !greenWeight || !chargeTemp); the handler starts the timer, moves
to roasting, and seeds the log with one sample at time 0 when chargeTemp is
truthy.  The handler does not touch roastTimer. -/
def startRoast (s : RoastApp) : RoastApp :=
  if s.appState = .setup ∧ s.greenWeight.truthy = true ∧ s.chargeTemp.truthy = true then
    { s with
      isTimerRunning := true
      appState := .roasting
      temperatureReadings :=
        if s.chargeTemp.truthy = true then [⟨0, jsParse s.chargeTemp⟩]
        else s.temperatureReadings }
  else s

/-- stopRoast: stop the timer. -/
def stopRoast (s : RoastApp) : RoastApp :=
  { s with isTimerRunning := false }

/-- The pause / resume button on the roasting panel: toggles the timer. -/
def pauseResumeClick (s : RoastApp) : RoastApp :=
  if s.appState = .roasting then
    if s.isTimerRunning then stopRoast s else { s with isTimerRunning := true }
  else s

/-- resetRoast: stops the timer, zeroes it, clears the first-crack marker,
the temperature log and the pending temperature input, and returns to setup.
It does not touch the setup form fields nor the completion fields. -/
def resetRoast (s : RoastApp) : RoastApp :=
  { s with
    isTimerRunning := false
    roastTimer := 0
    firstCrackTime := none
    temperatureReadings := []
    currentTemp := .empty
    appState := .setup }

/-- markFirstCrack, clicked through the 1st Crack button: on the roasting
panel, disabled = !isTimerRunning || firstCrackTime !== null; the handler
records the current timer value. -/
def markFirstCrack (s : RoastApp) : RoastApp :=
  if s.appState = .roasting ∧ s.isTimerRunning = true ∧ s.firstCrackTime = none then
    { s with firstCrackTime := some s.roastTimer }
  else s

/-- addTemperatureReading, clicked through the Log Temp button on the
roasting panel: the handler (like the button's disabled attribute) requires
currentTemp truthy with a non-NaN parseFloat, appends the sample stamped
with the current timer value and clears the input. -/
def addTemperatureReading (s : RoastApp) : RoastApp :=
  if s.appState = .roasting then
    match s.currentTemp with
    | .num q =>
        { s with
          temperatureReadings := s.temperatureReadings ++ [⟨s.roastTimer, .fin q⟩]
          currentTemp := .empty }
    | _ => s
  else s

/-- The timer effect: while isTimerRunning, one tick per second increments
roastTimer (the interval is keyed on isTimerRunning alone). -/
def tick (s : RoastApp) : RoastApp :=
  if s.isTimerRunning = true then { s with roastTimer := s.roastTimer + 1 } else s

/-- finishRoast, clicked through the Complete Roast button on the roasting
panel: stops the timer and moves to completion. -/
def finishRoast (s : RoastApp) : RoastApp :=
  if s.appState = .roasting then
    { s with isTimerRunning := false, appState := .completion }
  else s

/-- proceedToSummary, on the completion panel, disabled while roastedWeight
is empty. -/
def proceedToSummary (s : RoastApp) : RoastApp :=
  if s.appState = .completion ∧ s.roastedWeight.truthy = true then
    { s with appState := .summary }
  else s

/-- saveRoast, on the summary panel: archives the record (the archive is out
of scope here) and then calls resetRoast for the next roast. -/
def saveRoast (s : RoastApp) : RoastApp :=
  if s.appState = .summary then resetRoast s else s

/-- A number-typed input can only produce the empty string or a numeral. -/
def numInputOf : Option ℚ → NumInput
  | none => .empty
  | some q => .num q

/-- onChange of the green-weight input (setup panel only). -/
def setGreenWeight (v : Option ℚ) (s : RoastApp) : RoastApp :=
  if s.appState = .setup then { s with greenWeight := numInputOf v } else s

/-- onChange of the ambient-temperature input (setup panel only). -/
def setAmbientTemp (v : Option ℚ) (s : RoastApp) : RoastApp :=
  if s.appState = .setup then { s with ambientTemp := numInputOf v } else s

/-- onChange of the charge-temperature input (setup panel only). -/
def setChargeTemp (v : Option ℚ) (s : RoastApp) : RoastApp :=
  if s.appState = .setup then { s with chargeTemp := numInputOf v } else s

/-- onChange of the roast-profile select (setup panel only). -/
def setRoastType (t : RoastType) (s : RoastApp) : RoastApp :=
  if s.appState = .setup then { s with roastType := t } else s

/-- onChange of the bean-origin text input (setup panel only). -/
def setBeanOrigin (o : String) (s : RoastApp) : RoastApp :=
  if s.appState = .setup then { s with beanOrigin := o } else s

/-- onChange of the temperature entry (roasting panel only). -/
def setCurrentTemp (v : Option ℚ) (s : RoastApp) : RoastApp :=
  if s.appState = .roasting then { s with currentTemp := numInputOf v } else s

/-- onChange of the roasted-weight input (completion panel only). -/
def setRoastedWeight (v : Option ℚ) (s : RoastApp) : RoastApp :=
  if s.appState = .completion then { s with roastedWeight := numInputOf v } else s

/-- onChange of the notes textarea (summary panel only). -/
def setRoastNotes (n : String) (s : RoastApp) : RoastApp :=
  if s.appState = .summary then { s with roastNotes := n } else s

/-- The Setup button of the navigation header: always enabled, writes the
stage directly. -/
def navSetup (s : RoastApp) : RoastApp :=
  { s with appState := .setup }

/-- The Roast button of the navigation header: enabled only while both the
green-weight and charge-temperature fields are non-empty
(disabled = !greenWeight || !chargeTemp). -/
def navRoast (s : RoastApp) : RoastApp :=
  if s.greenWeight.truthy = true ∧ s.chargeTemp.truthy = true then
    { s with appState := .roasting }
  else s

/-- The History button of the navigation header: always enabled. -/
def navHistory (s : RoastApp) : RoastApp :=
  { s with appState := .history }

/-- The events the session state machine can process: the field edits,
every control of the setup / roasting / completion / summary panels, the
three navigation-header buttons, plus the timer tick. -/
inductive Op where
  | setGreenWeight (v : Option ℚ)
  | setAmbientTemp (v : Option ℚ)
  | setChargeTemp (v : Option ℚ)
  | setRoastType (t : RoastType)
  | setBeanOrigin (o : String)
  | setCurrentTemp (v : Option ℚ)
  | setRoastedWeight (v : Option ℚ)
  | setRoastNotes (n : String)
  | start
  | tick
  | pauseResume
  | markFirstCrack
  | logTemperature
  | finish
  | proceedToSummary
  | save
  | reset
  | navSetup
  | navRoast
  | navHistory

/-- The transition function of the session state machine. -/
def applyOp : Op → RoastApp → RoastApp
  | .setGreenWeight v, s => setGreenWeight v s
  | .setAmbientTemp v, s => setAmbientTemp v s
  | .setChargeTemp v, s => setChargeTemp v s
  | .setRoastType t, s => setRoastType t s
  | .setBeanOrigin o, s => setBeanOrigin o s
  | .setCurrentTemp v, s => setCurrentTemp v s
  | .setRoastedWeight v, s => setRoastedWeight v s
  | .setRoastNotes n, s => setRoastNotes n s
  | .start, s => startRoast s
  | .tick, s => tick s
  | .pauseResume, s => pauseResumeClick s
  | .markFirstCrack, s => markFirstCrack s
  | .logTemperature, s => addTemperatureReading s
  | .finish, s => finishRoast s
  | .proceedToSummary, s => proceedToSummary s
  | .save, s => saveRoast s
  | .reset, s => resetRoast s
  | .navSetup, s => navSetup s
  | .navRoast, s => navRoast s
  | .navHistory, s => navHistory s

/-- States reachable from the initial render by any sequence of events. -/
inductive Reachable : RoastApp → Prop where
  | init : Reachable initApp
  | step {s : RoastApp} (o : Op) : Reachable s → Reachable (applyOp o s)

/-- C8: for every input, getPredictions returns
totalTimeEstimate = max(baseTime + (chargeTemp - 200) * 0.5, 600) and
firstCrackEstimate = max(baseTime * 0.8 + (chargeTemp - 200) * 0.5, 480)
with baseTime = 720 when greenWeight > 500 and 660 otherwise, and
developmentTarget 15 / 18 / 22 for light / medium / dark; in particular the
floors totalTimeEstimate >= 600 and firstCrackEstimate >= 480 always hold. -/
theorem predictions_formula_and_floors (gw ct : NumInput) (rt : RoastType) :
    (getPredictions gw ct rt).firstCrack =
      max ((if parseOrZero gw > 500 then (720 : ℚ) else 660) * 0.8 +
        (parseOrZero ct - 200) * 0.5) 480 ∧
    (getPredictions gw ct rt).totalTime =
      max ((if parseOrZero gw > 500 then (720 : ℚ) else 660) +
        (parseOrZero ct - 200) * 0.5) 600 ∧
    (getPredictions gw ct rt).development =
      (match rt with | .light => 15 | .medium => 18 | .dark => 22) ∧
    600 ≤ (getPredictions gw ct rt).totalTime ∧
    480 ≤ (getPredictions gw ct rt).firstCrack := by
  refine ⟨rfl, rfl, ?_, le_max_right _ _, le_max_right _ _⟩
  cases rt <;> rfl

/-- C2 counterexample: resetRoast does not restore the configuration fields
to their empty defaults; a state whose green-weight field holds 400 keeps it
after the reset. -/
def c2State : RoastApp :=
  { initApp with
    appState := .roasting
    roastTimer := 77
    isTimerRunning := true
    greenWeight := .num 400
    chargeTemp := .num 200 }

/-- C2, counterexample: after reset() the green-weight configuration field
still holds 400, not the empty default the claim requires. -/
theorem reset_keeps_green_weight :
    (resetRoast c2State).greenWeight = NumInput.num 400 ∧
    NumInput.num 400 ≠ NumInput.empty := by
  exact ⟨rfl, by decide⟩

/-- C2 (amended): reset() is valid in every state; it returns to setup and
clears the live-session fields (timer, running flag, first-crack marker,
temperature log, pending temperature input), while the configuration and
completion fields (greenWeightGrams, ambientTempC, chargeTempC, roastProfile,
beanOrigin, roastedWeightGrams, notes) are left unchanged. -/
theorem reset_clears_live_session_only (s : RoastApp) :
    (resetRoast s).appState = .setup ∧
    (resetRoast s).roastTimer = 0 ∧
    (resetRoast s).isTimerRunning = false ∧
    (resetRoast s).firstCrackTime = none ∧
    (resetRoast s).temperatureReadings = [] ∧
    (resetRoast s).currentTemp = .empty ∧
    (resetRoast s).greenWeight = s.greenWeight ∧
    (resetRoast s).ambientTemp = s.ambientTemp ∧
    (resetRoast s).chargeTemp = s.chargeTemp ∧
    (resetRoast s).roastType = s.roastType ∧
    (resetRoast s).beanOrigin = s.beanOrigin ∧
    (resetRoast s).roastedWeight = s.roastedWeight ∧
    (resetRoast s).roastNotes = s.roastNotes := by
  exact ⟨rfl, rfl, rfl, rfl, rfl, rfl, rfl, rfl, rfl, rfl, rfl, rfl, rfl⟩

/-- C7: with two samples sharing the same time offset (both at second 10,
temperatures 180 and 185), getRateOfRise divides by zero and yields
Infinity, a non-finite value, instead of the graceful 0 the claim requires.
-/
theorem rate_of_rise_zero_time_diff :
    getRateOfRise [⟨10, .fin 180⟩, ⟨10, .fin 185⟩] = JSNum.posInf ∧
    JSNum.posInf ≠ JSNum.fin 0 := by
  constructor
  · norm_num [getRateOfRise, JSNum.sub, JSNum.div, JSNum.scale, JSNum.jround]
  · decide

/-- C1 counterexample: a session whose first crack was marked at
elapsedSeconds = 0 (firstCrackOffsetSeconds = 0, here with the timer at 5)
is reported in the drying phase, not development. -/
def c1State : RoastApp :=
  { initApp with
    appState := .roasting
    isTimerRunning := true
    firstCrackTime := some 0
    roastTimer := 5 }

/-- C1, counterexample: with the first crack marked (offset 0) and
elapsedSeconds = 5 >= 0, phaseOf returns drying, not development. -/
theorem phase_zero_mark_is_drying :
    c1State.firstCrackTime = some 0 ∧
    getCurrentPhase c1State = .drying ∧
    getCurrentPhase c1State ≠ .development := by
  exact ⟨rfl, rfl, by decide⟩

/-- C1 (amended): phaseOf returns development whenever
firstCrackOffsetSeconds is set to a nonzero value and
elapsedSeconds >= firstCrackOffsetSeconds, maillard when it is set nonzero
and elapsedSeconds < firstCrackOffsetSeconds, and drying when it is unset
or equal to 0 (the falsy test !firstCrackTime treats an offset of 0 as
unset, so a session whose first crack was marked at elapsedSeconds = 0 is
always in drying). -/
theorem phase_rule (s : RoastApp) :
    (s.firstCrackTime = none → getCurrentPhase s = .drying) ∧
    (s.firstCrackTime = some 0 → getCurrentPhase s = .drying) ∧
    (∀ t, s.firstCrackTime = some t → t ≠ 0 →
      (t ≤ s.roastTimer → getCurrentPhase s = .development) ∧
      (s.roastTimer < t → getCurrentPhase s = .maillard)) := by
  refine ⟨?_, ?_, ?_⟩
  · intro h
    simp [getCurrentPhase, h]
  · intro h
    simp [getCurrentPhase, h]
  · intro t h ht
    constructor
    · intro hle
      simp [getCurrentPhase, h, ht, Nat.not_lt.mpr hle]
    · intro hlt
      simp [getCurrentPhase, h, ht, hlt]

/-- C1, witness for phase_rule: marked at 3 with the timer at 10, the phase
is development. -/
def c1WitnessState : RoastApp :=
  { initApp with
    appState := .roasting
    isTimerRunning := true
    firstCrackTime := some 3
    roastTimer := 10 }

/-- C1, witness: phase_rule applied to a session marked at 3 with the timer
at 10 yields the development phase. -/
theorem phase_rule_witness : getCurrentPhase c1WitnessState = .development := by
  exact ((phase_rule c1WitnessState).2.2 3 rfl (by decide)).1 (by decide)

/-- C5 counterexample: a session with the first crack marked at second 0 and
the timer at 720; the claim's formula would give round(100 * 720 / 720) =
100, but the falsy test on the offset makes the code return 0. -/
def c5BadState : RoastApp :=
  { initApp with
    appState := .roasting
    isTimerRunning := true
    firstCrackTime := some 0
    roastTimer := 720 }

/-- C5, counterexample: with firstCrackOffsetSeconds = 0 and
elapsedSeconds = 720 > 0, developmentPercent returns 0, not the
round(100 * (720 - 0) / 720) = 100 the claim requires. -/
theorem development_percent_zero_mark :
    c5BadState.firstCrackTime = some 0 ∧
    c5BadState.roastTimer = 720 ∧
    getDevelopmentPercent c5BadState = .fin 0 ∧
    (round ((((720 : ℚ) - 0) / 720) * 100) : ℤ) = 100 ∧
    getDevelopmentPercent c5BadState ≠ .fin 100 := by
  refine ⟨rfl, rfl, rfl, ?_, ?_⟩
  · rw [round_eq, Int.floor_eq_iff]
    constructor
    · norm_num
    · norm_num
  · rw [show getDevelopmentPercent c5BadState = .fin 0 from rfl]
    simp

/-- C5 (amended): developmentPercent returns 0 when no first crack is
marked or when the marked offset is 0 (the falsy test treats an offset of 0
as unmarked); for every session with firstCrackOffsetSeconds set to a
nonzero value and elapsedSeconds > 0 it returns
round(100 * (elapsedSeconds - firstCrackOffsetSeconds) / elapsedSeconds);
in particular with firstCrackOffsetSeconds = 600 and elapsedSeconds = 720
it returns 17. -/
theorem development_percent_rule (s : RoastApp) :
    (s.firstCrackTime = none → getDevelopmentPercent s = .fin 0) ∧
    (s.firstCrackTime = some 0 → getDevelopmentPercent s = .fin 0) ∧
    (∀ t, s.firstCrackTime = some t → t ≠ 0 → 0 < s.roastTimer →
      getDevelopmentPercent s =
        .fin ((round ((((s.roastTimer : ℚ) - (t : ℚ)) / (s.roastTimer : ℚ)) * 100) : ℤ) : ℚ)) := by
  refine ⟨?_, ?_, ?_⟩
  · intro h
    simp [getDevelopmentPercent, h]
  · intro h
    simp [getDevelopmentPercent, h]
  · intro t h ht hpos
    have hrt : ((s.roastTimer : ℚ)) ≠ 0 := Nat.cast_ne_zero.mpr (by omega)
    simp [getDevelopmentPercent, h, ht, JSNum.div, hrt, JSNum.scale, JSNum.jround,
      mul_comm]

/-- C5, witness state: first crack at 600, timer at 720. -/
def c5State : RoastApp :=
  { initApp with
    appState := .roasting
    isTimerRunning := true
    firstCrackTime := some 600
    roastTimer := 720 }

/-- C5, witness: development_percent_rule applied at firstCrackOffsetSeconds
= 600 and elapsedSeconds = 720 yields 17 percent. -/
theorem development_percent_witness :
    getDevelopmentPercent c5State = .fin 17 := by
  have h := (development_percent_rule c5State).2.2 600 rfl (by decide) (by decide)
  have h2 : c5State.roastTimer = 720 := rfl
  rw [h, h2]
  have h3 : ((((720 : ℕ) : ℚ)) - ((600 : ℕ) : ℚ)) / (((720 : ℕ) : ℚ)) * 100 = 50 / 3 := by
    norm_num
  rw [h3]
  have h4 : (round ((50 : ℚ) / 3) : ℤ) = 17 := by
    rw [round_eq, Int.floor_eq_iff]
    constructor
    · norm_num
    · norm_num
  rw [h4]
  norm_num

/-- C3: markFirstCrack records the current elapsedSeconds exactly when the
stage is roasting (active), the timer is running and the marker is unset;
in every other case it is a no-op leaving the whole state unchanged, and it
is idempotent, so after two consecutive calls the marker holds the value
recorded at the first call. -/
theorem mark_first_crack_guarded (s : RoastApp) :
    (s.appState = .roasting → s.isTimerRunning = true → s.firstCrackTime = none →
      markFirstCrack s = { s with firstCrackTime := some s.roastTimer }) ∧
    (¬(s.appState = .roasting ∧ s.isTimerRunning = true ∧ s.firstCrackTime = none) →
      markFirstCrack s = s) ∧
    markFirstCrack (markFirstCrack s) = markFirstCrack s := by
  refine ⟨?_, ?_, ?_⟩
  · intro h1 h2 h3
    simp [markFirstCrack, h1, h2, h3]
  · intro h
    simp only [markFirstCrack, if_neg h]
  · by_cases h : s.appState = .roasting ∧ s.isTimerRunning = true ∧ s.firstCrackTime = none
    · have h1 : markFirstCrack s = { s with firstCrackTime := some s.roastTimer } := by
        simp [markFirstCrack, h]
      rw [h1]
      simp [markFirstCrack]
    · have h1 : markFirstCrack s = s := by simp only [markFirstCrack, if_neg h]
      rw [h1]
      exact h1

/-- C3, witness: a running roasting session with the timer at 5 and no
marker; markFirstCrack records 5, a second call changes nothing, and a call
on the already-marked state is a no-op. -/
def c3State : RoastApp :=
  { initApp with
    appState := .roasting
    isTimerRunning := true
    roastTimer := 5 }

/-- C3, witness: mark_first_crack_guarded applied to the concrete running
session with the timer at 5. -/
theorem mark_first_crack_witness :
    markFirstCrack c3State = { c3State with firstCrackTime := some 5 } ∧
    markFirstCrack (markFirstCrack c3State) = markFirstCrack c3State := by
  exact ⟨(mark_first_crack_guarded c3State).1 rfl rfl rfl,
    (mark_first_crack_guarded c3State).2.2⟩

/-- C6: logTemperature appends the parsed sample stamped with the current
elapsedSeconds and only does so while roasting with a value that parses to
a finite number; a non-numeric pending value (parseFloat gives NaN), an
empty one, or a stage other than roasting leaves the state unchanged. -/
theorem log_temperature_validation (s : RoastApp) :
    (∀ q, s.appState = .roasting → s.currentTemp = .num q →
      addTemperatureReading s =
        { s with
          temperatureReadings := s.temperatureReadings ++ [⟨s.roastTimer, .fin q⟩]
          currentTemp := .empty }) ∧
    (s.currentTemp = .nonNumeric → addTemperatureReading s = s) ∧
    (s.currentTemp = .empty → addTemperatureReading s = s) ∧
    (s.appState ≠ .roasting → addTemperatureReading s = s) := by
  refine ⟨?_, ?_, ?_, ?_⟩
  · intro q h1 h2
    simp [addTemperatureReading, h1, h2]
  · intro h
    by_cases h1 : s.appState = .roasting
    · simp [addTemperatureReading, h1, h]
    · simp [addTemperatureReading, h1]
  · intro h
    by_cases h1 : s.appState = .roasting
    · simp [addTemperatureReading, h1, h]
    · simp [addTemperatureReading, h1]
  · intro h
    simp [addTemperatureReading, h]

/-- C6, witness: an active session whose pending input is non-numeric -- the
call is rejected and the state is unchanged. -/
def c6State : RoastApp :=
  { initApp with
    appState := .roasting
    isTimerRunning := true
    roastTimer := 30
    currentTemp := .nonNumeric }

/-- C6, witness: log_temperature_validation on the session holding the
non-numeric pending input: the state, in particular the log, is unchanged.
-/
theorem log_temperature_witness :
    addTemperatureReading c6State = c6State := by
  exact (log_temperature_validation c6State).2.1 rfl

/-- C10: when the pending temperature input is non-empty and numeric and
the stage is roasting, the logging click appends exactly one sample, resets
the pending input to the empty string, and an immediate second click
without a new value is therefore a no-op. -/
theorem log_temperature_clears_input (s : RoastApp) (q : ℚ)
    (h1 : s.appState = .roasting) (h2 : s.currentTemp = .num q) :
    (addTemperatureReading s).currentTemp = .empty ∧
    (addTemperatureReading s).temperatureReadings.length =
      s.temperatureReadings.length + 1 ∧
    addTemperatureReading (addTemperatureReading s) = addTemperatureReading s := by
  have h : addTemperatureReading s =
      { s with
        temperatureReadings := s.temperatureReadings ++ [⟨s.roastTimer, .fin q⟩]
        currentTemp := .empty } := by
    simp [addTemperatureReading, h1, h2]
  refine ⟨by rw [h], by rw [h]; simp, ?_⟩
  rw [h]
  by_cases h3 : s.appState = .roasting
  · simp [addTemperatureReading, h3]
  · simp [addTemperatureReading, h3]

/-- C10, witness state: an active session with 200 pending in the
temperature input. -/
def c10State : RoastApp :=
  { initApp with
    appState := .roasting
    isTimerRunning := true
    roastTimer := 45
    currentTemp := .num 200 }

/-- C10, witness: log_temperature_clears_input at the concrete state: the
input is cleared, the log grows by one, and a second click is a no-op. -/
theorem log_temperature_clears_input_witness :
    (addTemperatureReading c10State).currentTemp = .empty ∧
    (addTemperatureReading c10State).temperatureReadings.length =
      c10State.temperatureReadings.length + 1 ∧
    addTemperatureReading (addTemperatureReading c10State) =
      addTemperatureReading c10State := by
  exact log_temperature_clears_input c10State 200 rfl rfl

/-- The session data invariant: temperature-log time offsets are
non-decreasing, no logged offset exceeds the current timer, and the
first-crack offset, when set, does not exceed the current timer.  Since the
timer only moves forward between resets, this state predicate captures the
claim's at-insertion / at-setting conditions. -/
def Inv (s : RoastApp) : Prop :=
  List.Chain' (fun a b => a.time ≤ b.time) s.temperatureReadings ∧
  (∀ r ∈ s.temperatureReadings, r.time ≤ s.roastTimer) ∧
  (∀ t, s.firstCrackTime = some t → t ≤ s.roastTimer)

theorem chain_le_append_single {l : List TemperatureReading} {r : TemperatureReading}
    (hl : List.Chain' (fun a b => a.time ≤ b.time) l)
    (hr : ∀ x ∈ l, x.time ≤ r.time) :
    List.Chain' (fun a b => a.time ≤ b.time) (l ++ [r]) := by
  refine List.Chain'.append hl (List.chain'_singleton r) ?_
  intro x hx y hy
  have hyr : r = y := by simpa using hy
  subst hyr
  obtain ⟨hne, hxeq⟩ := List.mem_getLast?_eq_getLast hx
  exact hr x (hxeq ▸ List.getLast_mem hne)

theorem inv_reset (s : RoastApp) : Inv (resetRoast s) := by
  refine ⟨List.chain'_nil, ?_, ?_⟩
  · intro r hr
    cases hr
  · intro t ht
    simp [resetRoast] at ht

theorem inv_init : Inv initApp := by
  refine ⟨List.chain'_nil, ?_, ?_⟩
  · intro r hr
    cases hr
  · intro t ht
    simp [initApp] at ht

theorem inv_preserved (o : Op) (s : RoastApp) (h : Inv s) : Inv (applyOp o s) := by
  obtain ⟨hchain, hmem, hfc⟩ := h
  cases o with
  | setGreenWeight v =>
      show Inv (setGreenWeight v s)
      unfold setGreenWeight
      split <;> exact ⟨hchain, hmem, hfc⟩
  | setAmbientTemp v =>
      show Inv (setAmbientTemp v s)
      unfold setAmbientTemp
      split <;> exact ⟨hchain, hmem, hfc⟩
  | setChargeTemp v =>
      show Inv (setChargeTemp v s)
      unfold setChargeTemp
      split <;> exact ⟨hchain, hmem, hfc⟩
  | setRoastType t =>
      show Inv (setRoastType t s)
      unfold setRoastType
      split <;> exact ⟨hchain, hmem, hfc⟩
  | setBeanOrigin o =>
      show Inv (setBeanOrigin o s)
      unfold setBeanOrigin
      split <;> exact ⟨hchain, hmem, hfc⟩
  | setCurrentTemp v =>
      show Inv (setCurrentTemp v s)
      unfold setCurrentTemp
      split <;> exact ⟨hchain, hmem, hfc⟩
  | setRoastedWeight v =>
      show Inv (setRoastedWeight v s)
      unfold setRoastedWeight
      split <;> exact ⟨hchain, hmem, hfc⟩
  | setRoastNotes n =>
      show Inv (setRoastNotes n s)
      unfold setRoastNotes
      split <;> exact ⟨hchain, hmem, hfc⟩
  | start =>
      show Inv (startRoast s)
      unfold startRoast
      split
      · split
        · refine ⟨List.chain'_singleton _, ?_, hfc⟩
          intro r hr
          rw [List.mem_singleton] at hr
          subst hr
          exact Nat.zero_le _
        · exact ⟨hchain, hmem, hfc⟩
      · exact ⟨hchain, hmem, hfc⟩
  | tick =>
      show Inv (tick s)
      unfold tick
      split
      · refine ⟨hchain, ?_, ?_⟩
        · intro r hr
          exact Nat.le_succ_of_le (hmem r hr)
        · intro t ht
          exact Nat.le_succ_of_le (hfc t ht)
      · exact ⟨hchain, hmem, hfc⟩
  | pauseResume =>
      show Inv (pauseResumeClick s)
      unfold pauseResumeClick stopRoast
      split
      · split
        · exact ⟨hchain, hmem, hfc⟩
        · exact ⟨hchain, hmem, hfc⟩
      · exact ⟨hchain, hmem, hfc⟩
  | markFirstCrack =>
      show Inv (markFirstCrack s)
      unfold markFirstCrack
      split
      · refine ⟨hchain, hmem, ?_⟩
        intro t ht
        have ht' : some s.roastTimer = some t := ht
        injection ht' with h
        exact le_of_eq h.symm
      · exact ⟨hchain, hmem, hfc⟩
  | logTemperature =>
      show Inv (addTemperatureReading s)
      unfold addTemperatureReading
      split
      · split
        · refine ⟨chain_le_append_single hchain hmem, ?_, hfc⟩
          intro r hr
          rcases List.mem_append.mp hr with hin | hin
          · exact hmem r hin
          · rw [List.mem_singleton] at hin
            subst hin
            exact le_refl _
        · exact ⟨hchain, hmem, hfc⟩
      · exact ⟨hchain, hmem, hfc⟩
  | finish =>
      show Inv (finishRoast s)
      unfold finishRoast
      split <;> exact ⟨hchain, hmem, hfc⟩
  | proceedToSummary =>
      show Inv (proceedToSummary s)
      unfold proceedToSummary
      split <;> exact ⟨hchain, hmem, hfc⟩
  | save =>
      show Inv (saveRoast s)
      unfold saveRoast
      split
      · exact inv_reset s
      · exact ⟨hchain, hmem, hfc⟩
  | reset =>
      show Inv (resetRoast s)
      exact inv_reset s
  | navSetup =>
      show Inv (navSetup s)
      exact ⟨hchain, hmem, hfc⟩
  | navRoast =>
      show Inv (navRoast s)
      unfold navRoast
      split <;> exact ⟨hchain, hmem, hfc⟩
  | navHistory =>
      show Inv (navHistory s)
      exact ⟨hchain, hmem, hfc⟩

/-- C9: every reachable session state satisfies the data invariant -- the
temperature-log time offsets are non-decreasing and bounded by the timer,
and the first-crack offset, once set, is bounded by the timer -- and every
operation of the state machine preserves it. -/
theorem session_state_invariants :
    (∀ s, Reachable s → Inv s) ∧
    (∀ (o : Op) (s : RoastApp), Inv s → Inv (applyOp o s)) := by
  refine ⟨?_, inv_preserved⟩
  intro s hs
  induction hs with
  | init => exact inv_init
  | step o _ ih => exact inv_preserved o _ ih

/-- C9, witness: the invariant holds at the initial state, obtained from
the reachability half of session_state_invariants. -/
theorem session_state_invariants_witness : Inv initApp := by
  exact session_state_invariants.1 initApp Reachable.init

/-- Auxiliary reachability invariant: the number-typed green-weight and
charge-temperature inputs never hold a non-numeric string (an
<input type=number> can only produce the empty string or a numeral). -/
def FieldsWf (s : RoastApp) : Prop :=
  s.greenWeight ≠ .nonNumeric ∧ s.chargeTemp ≠ .nonNumeric

theorem numInputOf_ne_nonNumeric (v : Option ℚ) : numInputOf v ≠ .nonNumeric := by
  cases v <;> simp [numInputOf]

theorem reachable_fields_wf (s : RoastApp) (h : Reachable s) : FieldsWf s := by
  induction h with
  | init =>
      refine ⟨?_, ?_⟩ <;> simp [initApp]
  | step o hs ih =>
      cases o with
      | setGreenWeight v =>
          simp only [applyOp]
          unfold setGreenWeight
          split
          · exact ⟨numInputOf_ne_nonNumeric v, ih.2⟩
          · exact ih
      | setAmbientTemp v =>
          simp only [applyOp]
          unfold setAmbientTemp
          split <;> exact ih
      | setChargeTemp v =>
          simp only [applyOp]
          unfold setChargeTemp
          split
          · exact ⟨ih.1, numInputOf_ne_nonNumeric v⟩
          · exact ih
      | setRoastType t =>
          simp only [applyOp]
          unfold setRoastType
          split <;> exact ih
      | setBeanOrigin o =>
          simp only [applyOp]
          unfold setBeanOrigin
          split <;> exact ih
      | setCurrentTemp v =>
          simp only [applyOp]
          unfold setCurrentTemp
          split <;> exact ih
      | setRoastedWeight v =>
          simp only [applyOp]
          unfold setRoastedWeight
          split <;> exact ih
      | setRoastNotes n =>
          simp only [applyOp]
          unfold setRoastNotes
          split <;> exact ih
      | start =>
          simp only [applyOp]
          unfold startRoast
          split <;> exact ih
      | tick =>
          simp only [applyOp]
          unfold tick
          split <;> exact ih
      | pauseResume =>
          simp only [applyOp]
          unfold pauseResumeClick stopRoast
          split
          · split <;> exact ih
          · exact ih
      | markFirstCrack =>
          simp only [applyOp]
          unfold markFirstCrack
          split <;> exact ih
      | logTemperature =>
          simp only [applyOp]
          unfold addTemperatureReading
          split
          · split <;> exact ih
          · exact ih
      | finish =>
          simp only [applyOp]
          unfold finishRoast
          split <;> exact ih
      | proceedToSummary =>
          simp only [applyOp]
          unfold proceedToSummary
          split <;> exact ih
      | save =>
          simp only [applyOp]
          unfold saveRoast resetRoast
          split <;> exact ih
      | reset =>
          simp only [applyOp]
          unfold resetRoast
          exact ih
      | navSetup =>
          simp only [applyOp]
          unfold navSetup
          exact ih
      | navRoast =>
          simp only [applyOp]
          unfold navRoast
          split <;> exact ih
      | navHistory =>
          simp only [applyOp]
          unfold navHistory
          exact ih

/-- C4 counterexample state: configure 400 and 200, start, let one second
tick, then leave the roast through the Setup button of the navigation
header;
the stage is setup again but the timer is 1 and still running. -/
def c4BadState : RoastApp :=
  applyOp .navSetup (applyOp .tick (applyOp .start
    (applyOp (.setChargeTemp (some 200))
      (applyOp (.setGreenWeight (some 400)) initApp))))

/-- C4, counterexample: the nav Setup button reaches a reachable setup
state whose timer is 1; start() succeeds there (both fields present and
parseable) but elapsedSeconds is 1 after the start, not the 0 the claim
requires. -/
theorem start_with_nonzero_timer :
    Reachable c4BadState ∧
    c4BadState.appState = .setup ∧
    c4BadState.greenWeight = .num 400 ∧
    c4BadState.chargeTemp = .num 200 ∧
    (startRoast c4BadState).appState = .roasting ∧
    (startRoast c4BadState).roastTimer = 1 ∧
    (1 : ℕ) ≠ 0 := by
  refine ⟨?_, rfl, rfl, rfl, rfl, rfl, by decide⟩
  exact Reachable.step .navSetup (Reachable.step .tick (Reachable.step .start
    (Reachable.step (.setChargeTemp (some 200))
      (Reachable.step (.setGreenWeight (some 400)) Reachable.init))))

/-- C4 (amended): from any reachable state, start() succeeds (changes the
state) exactly when the stage is setup and both greenWeightGrams and
chargeTempC are present and parseable (hold numerals; in reachable states
the number-typed inputs are never non-numeric, so present and parseable
coincide with the non-emptiness the button tests); on success it
transitions to roasting, sets isRunning = true, leaves elapsedSeconds
unchanged (0 on the normal flow, but nonzero when setup was re-entered
mid-roast through the navigation header) and seeds temperatureLog with the
single sample {0, chargeTempC}; when its preconditions are unmet it is a
no-op. -/
theorem start_success_semantics (s : RoastApp) (hr : Reachable s) :
    ((startRoast s ≠ s) ↔
      (s.appState = .setup ∧ (∃ q, s.greenWeight = .num q) ∧
        (∃ q, s.chargeTemp = .num q))) ∧
    (∀ qc, s.appState = .setup → s.greenWeight.truthy = true →
      s.chargeTemp = .num qc →
      (startRoast s).appState = .roasting ∧
      (startRoast s).isTimerRunning = true ∧
      (startRoast s).roastTimer = s.roastTimer ∧
      (startRoast s).temperatureReadings = [⟨0, .fin qc⟩]) := by
  have hg := reachable_fields_wf s hr
  constructor
  · constructor
    · intro hne
      by_cases hcond : s.appState = .setup ∧ s.greenWeight.truthy = true ∧
          s.chargeTemp.truthy = true
      · obtain ⟨h1, h2, h3⟩ := hcond
        refine ⟨h1, ?_, ?_⟩
        · cases hgw : s.greenWeight with
          | empty => rw [hgw] at h2; simp [NumInput.truthy] at h2
          | nonNumeric => exact absurd hgw hg.1
          | num q => exact ⟨q, rfl⟩
        · cases hct : s.chargeTemp with
          | empty => rw [hct] at h3; simp [NumInput.truthy] at h3
          | nonNumeric => exact absurd hct hg.2
          | num q => exact ⟨q, rfl⟩
      · exact absurd (by simp only [startRoast, if_neg hcond]) hne
    · rintro ⟨h1, ⟨qg, hgw⟩, ⟨qc, hct⟩⟩
      have h2 : s.greenWeight.truthy = true := by rw [hgw]; rfl
      have h3 : s.chargeTemp.truthy = true := by rw [hct]; rfl
      intro heq
      have hroast : (startRoast s).appState = .roasting := by
        simp [startRoast, h1, h2, h3]
      rw [heq] at hroast
      exact absurd (h1.symm.trans hroast) (by decide)
  · intro qc h1 h2 h3
    have h3t : s.chargeTemp.truthy = true := by rw [h3]; rfl
    have hst : startRoast s =
        { s with
          isTimerRunning := true
          appState := .roasting
          temperatureReadings := [⟨0, jsParse s.chargeTemp⟩] } := by
      simp [startRoast, h1, h2, h3t]
    rw [hst]
    refine ⟨rfl, rfl, rfl, ?_⟩
    rw [h3]
    rfl

/-- C4, witness state: the initial render after typing 400 into the green
weight and 200 into the charge temperature. -/
def c4State : RoastApp :=
  applyOp (.setChargeTemp (some 200)) (applyOp (.setGreenWeight (some 400)) initApp)

/-- C4, witness: start_success_semantics at the configured fresh setup
state: the start succeeds into roasting, running, with the timer left at
its prior value 0 and the log seeded with the charge-temperature sample. -/
theorem start_success_semantics_witness :
    (startRoast c4State).appState = .roasting ∧
    (startRoast c4State).isTimerRunning = true ∧
    (startRoast c4State).roastTimer = 0 ∧
    (startRoast c4State).temperatureReadings = [⟨0, .fin 200⟩] := by
  have hr : Reachable c4State :=
    Reachable.step (.setChargeTemp (some 200))
      (Reachable.step (.setGreenWeight (some 400)) Reachable.init)
  have h := (start_success_semantics c4State hr).2 200 rfl rfl rfl
  exact ⟨h.1, h.2.1, h.2.2.1.trans rfl, h.2.2.2⟩

end Zena

